import Mathlib

/-!
Verification development for the three-stage energy-bill analysis pipeline
in `app.py` (Extractor / Benchmarker / Reporter agents orchestrated by the
"Run Analysis" handler over `st.session_state`).

The embedding models Python strings as `List Char`, JSON values as the
inductive `JVal` with numbers as exact rationals (Python floats are binary
doubles; all concrete numbers appearing in the program and in the claims
have exact short decimal forms, so the rational model agrees with them),
and each model-delegate call by its observable outcome (`DelegateResult`):
either the returned message content or a raised exception.
-/

namespace EnergyAgent

abbrev Chars := List Char

/-- Pattern matching at the head of a string: `isPfx p s` is true when `p`
occurs at the start of `s` (the `str.startswith` shape used by scanning). -/
def isPfx : Chars → Chars → Bool
  | [], _ => true
  | _ :: _, [] => false
  | a :: as, b :: bs => a = b && isPfx as bs

/-- Substring occurrence: `hasPat p s` is true when `p` occurs contiguously
anywhere in `s` (`p in s` in Python). -/
def hasPat (p : Chars) : Chars → Bool
  | [] => isPfx p []
  | c :: rest => isPfx p (c :: rest) || hasPat p rest

/-- Fuelled worker for `pyReplace`.  Scans left to right: on a match of
`pat` it skips past the matched characters and continues (the replacement
text at every call site in `app.py` is the empty string), otherwise it
keeps one character and moves on.  This is the semantics of Python
`s.replace(pat, "")` for a non-empty `pat`.  The fuel is an upper bound on
the number of steps; `pyReplace` supplies `s.length`, which always
suffices because every step consumes at least one character. -/
def replGo (pat : Chars) : Nat → Chars → Chars
  | _, [] => []
  | 0, s => s
  | fuel + 1, c :: rest =>
    if pat ≠ [] ∧ isPfx pat (c :: rest) then
      replGo pat fuel ((c :: rest).drop pat.length)
    else
      c :: replGo pat fuel rest

/-- Python `s.replace(pat, "")` (all call sites in `app.py` replace with the
empty string). -/
def pyReplace (pat s : Chars) : Chars := replGo pat s.length s

/-- ASCII whitespace recognised by Python `str.strip()` (the Unicode cases
never arise in the program's data). -/
def isPyWs (c : Char) : Bool :=
  c = ' ' || c = '\t' || c = '\n' || c = '\r' || c = '\x0b' || c = '\x0c'

/-- Remove leading whitespace (the front half of Python `str.strip()`). -/
def dropLeadWs : Chars → Chars
  | [] => []
  | c :: rest => if isPyWs c then dropLeadWs rest else c :: rest

/-- Remove trailing whitespace (the back half of Python `str.strip()`). -/
def dropTrailWs : Chars → Chars
  | [] => []
  | c :: rest =>
    match dropTrailWs rest with
    | [] => if isPyWs c then [] else [c]
    | r => c :: r

/-- Python `str.strip()`. -/
def pyStrip (s : Chars) : Chars := dropTrailWs (dropLeadWs s)

/-- The backtick character (code 96). -/
def tick : Char := Char.ofNat 96

/-- The code-fence markers stripped at every delegate call site. -/
def fenceJson : Chars := "```json".toList

/-- The bare code-fence marker. -/
def fence : Chars := "```".toList

/-- The normalization applied to every delegate response before JSON
parsing, inlined identically at lines 51, 77 and 118 of `app.py`:
`text.replace("```json", "").replace("```", "").strip()`. -/
def normalize (s : Chars) : Chars :=
  pyStrip (pyReplace fence (pyReplace fenceJson s))

/-! ### JSON values and `json.loads` -/

/-- JSON values as produced by Python `json.loads`: objects are
insertion-ordered key/value lists (later duplicate keys overwrite earlier
ones, which the lookup `pyGet` accounts for), numbers carry an
`isFloat` flag distinguishing Python `int` from `float` results, with the
numeric value an exact rational.  (Python `json.loads` additionally accepts
the non-finite extensions `NaN` and `Infinity`, which have no rational
value and never arise in the claims; the model rejects them.) -/
inductive JVal where
  | null
  | bool (b : Bool)
  | num (isFloat : Bool) (q : ℚ)
  | str (s : Chars)
  | arr (xs : List JVal)
  | obj (fields : List (Chars × JVal))

/-- JSON whitespace accepted between tokens by `json.loads`. -/
def isJWs (c : Char) : Bool :=
  c = ' ' || c = '\t' || c = '\n' || c = '\r'

/-- Skip JSON inter-token whitespace. -/
def jDropWs : Chars → Chars
  | [] => []
  | c :: rest => if isJWs c then jDropWs rest else c :: rest

def isDigitCh (c : Char) : Bool := '0' ≤ c ∧ c ≤ '9'

def digitVal (c : Char) : Nat := c.toNat - '0'.toNat

/-- Longest digit run at the front of the input, returned with the rest. -/
def takeDigits : Chars → Chars × Chars
  | [] => ([], [])
  | c :: rest =>
    if isDigitCh c then
      let (ds, r) := takeDigits rest
      (c :: ds, r)
    else
      ([], c :: rest)

def digitsToNat (ds : Chars) : Nat :=
  ds.foldl (fun acc c => acc * 10 + digitVal c) 0

def isHexCh (c : Char) : Bool :=
  isDigitCh c || ('a' ≤ c ∧ c ≤ 'f') || ('A' ≤ c ∧ c ≤ 'F')

def hexVal (c : Char) : Nat :=
  if isDigitCh c then c.toNat - '0'.toNat
  else if 'a' ≤ c ∧ c ≤ 'f' then c.toNat - 'a'.toNat + 10
  else c.toNat - 'A'.toNat + 10

/-- Single-character escapes accepted after a backslash in a JSON string. -/
def jEscape (c : Char) : Option Char :=
  if c = '"' then some '"'
  else if c = '\\' then some '\\'
  else if c = '/' then some '/'
  else if c = 'b' then some '\x08'
  else if c = 'f' then some '\x0c'
  else if c = 'n' then some '\n'
  else if c = 'r' then some '\r'
  else if c = 't' then some '\t'
  else none

/-- Body of a JSON string literal, entered after the opening quote; returns
the decoded characters and the input after the closing quote.  Strict-mode
`json.loads` rejects raw control characters.  (Surrogate-pair decoding of
astral characters via two adjacent escapes is simplified to two separate
code units; no claim involves such data.) -/
def parseJStr : Chars → Option (Chars × Chars)
  | [] => none
  | c :: rest =>
    if c = '"' then some ([], rest)
    else if c = '\\' then
      match rest with
      | [] => none
      | e :: rest2 =>
        match jEscape e with
        | some c' =>
          match parseJStr rest2 with
          | some (s, r) => some (c' :: s, r)
          | none => none
        | none =>
          if e = 'u' then
            match rest2 with
            | h1 :: h2 :: h3 :: h4 :: rest3 =>
              if isHexCh h1 && isHexCh h2 && isHexCh h3 && isHexCh h4 then
                let n := ((hexVal h1 * 16 + hexVal h2) * 16 + hexVal h3) * 16 + hexVal h4
                match parseJStr rest3 with
                | some (s, r) => some (Char.ofNat n :: s, r)
                | none => none
              else none
            | _ => none
          else none
    else if c.toNat < 32 then none
    else
      match parseJStr rest with
      | some (s, r) => some (c :: s, r)
      | none => none

/-- Number literal per the JSON grammar, valued as a rational together with
the int/float distinction that Python `json.loads` makes (`int` exactly
when the literal has no fraction and no exponent). -/
def parseJNum (s : Chars) : Option (JVal × Chars) :=
  let (neg, s1) := match s with
    | '-' :: r => (true, r)
    | _ => (false, s)
  let (ids, s2) := takeDigits s1
  if ids = [] then none
  else if ids.length > 1 ∧ ids.headI = '0' then none
  else
    let (fds, s3, hasFrac) := match s2 with
      | '.' :: r =>
        let (ds, r') := takeDigits r
        (ds, r', true)
      | _ => ([], s2, false)
    if hasFrac ∧ fds = [] then none
    else
      let (eds, s4, hasExp, negExp) := match s3 with
        | 'e' :: '+' :: r => let (ds, r') := takeDigits r; (ds, r', true, false)
        | 'e' :: '-' :: r => let (ds, r') := takeDigits r; (ds, r', true, true)
        | 'e' :: r => let (ds, r') := takeDigits r; (ds, r', true, false)
        | 'E' :: '+' :: r => let (ds, r') := takeDigits r; (ds, r', true, false)
        | 'E' :: '-' :: r => let (ds, r') := takeDigits r; (ds, r', true, true)
        | 'E' :: r => let (ds, r') := takeDigits r; (ds, r', true, false)
        | _ => ([], s3, false, false)
      if hasExp ∧ eds = [] then none
      else
        let flen := fds.length
        let mant : ℤ := (digitsToNat ids * 10 ^ flen + digitsToNat fds : ℕ)
        let mant' : ℤ := if neg then -mant else mant
        let e := digitsToNat eds
        let v : ℚ :=
          if negExp then mkRat mant' (10 ^ flen * 10 ^ e)
          else mkRat (mant' * (10 : ℤ) ^ e) (10 ^ flen)
        some (JVal.num (hasFrac || hasExp) v, s4)

mutual

/-- JSON value parser (recursive descent over the input, with fuel bounding
the nesting depth; `jsonLoads` supplies fuel that always suffices since
each nesting level consumes input). -/
def parseVal : Nat → Chars → Option (JVal × Chars)
  | 0, _ => none
  | fuel + 1, s =>
    match s with
    | [] => none
    | 'n' :: 'u' :: 'l' :: 'l' :: r => some (.null, r)
    | 't' :: 'r' :: 'u' :: 'e' :: r => some (.bool true, r)
    | 'f' :: 'a' :: 'l' :: 's' :: 'e' :: r => some (.bool false, r)
    | '"' :: r =>
      match parseJStr r with
      | some (str, rest) => some (.str str, rest)
      | none => none
    | '[' :: r =>
      match jDropWs r with
      | ']' :: r2 => some (.arr [], r2)
      | r1 => parseElems fuel r1
    | '\x7b' :: r =>
      match jDropWs r with
      | '\x7d' :: r2 => some (.obj [], r2)
      | r1 => parseMembers fuel r1
    | s' => parseJNum s'

/-- Elements of a non-empty JSON array, positioned at the first element. -/
def parseElems : Nat → Chars → Option (JVal × Chars)
  | 0, _ => none
  | fuel + 1, s =>
    match parseVal fuel s with
    | none => none
    | some (v, rest) =>
      match jDropWs rest with
      | ',' :: r2 =>
        match parseElems fuel (jDropWs r2) with
        | some (.arr xs, r3) => some (.arr (v :: xs), r3)
        | _ => none
      | ']' :: r2 => some (.arr [v], r2)
      | _ => none

/-- Members of a non-empty JSON object, positioned at the first key. -/
def parseMembers : Nat → Chars → Option (JVal × Chars)
  | 0, _ => none
  | fuel + 1, s =>
    match s with
    | '"' :: r =>
      match parseJStr r with
      | none => none
      | some (key, r1) =>
        match jDropWs r1 with
        | ':' :: r2 =>
          match parseVal fuel (jDropWs r2) with
          | none => none
          | some (v, r3) =>
            match jDropWs r3 with
            | ',' :: r4 =>
              match parseMembers fuel (jDropWs r4) with
              | some (.obj fs, r5) => some (.obj ((key, v) :: fs), r5)
              | _ => none
            | '\x7d' :: r4 => some (.obj [(key, v)], r4)
            | _ => none
        | _ => none
    | _ => none

end

/-- Python `json.loads`: a single JSON value, with surrounding whitespace
allowed and nothing after it. -/
def jsonLoads (s : Chars) : Option JVal :=
  match parseVal (s.length + 1) (jDropWs s) with
  | some (v, rest) => if jDropWs rest = [] then some v else none
  | none => none

/-! ### Python dictionary access, truthiness and number formatting -/

/-- `d.get(k)` on a dictionary built from an ordered field list in which a
later duplicate key overwrites an earlier one, as `json.loads` builds its
dictionaries: the last binding for the key wins. -/
def pyGet (fs : List (Chars × JVal)) (k : Chars) : Option JVal :=
  match fs with
  | [] => none
  | (k', v) :: rest =>
    match pyGet rest k with
    | some w => some w
    | none => if k' = k then some v else none

/-- Python truthiness of a JSON-decoded value (`if data.get(k):` guards). -/
def pyTruthy : JVal → Bool
  | .null => false
  | .bool b => b
  | .num _ q => q ≠ 0
  | .str s => s ≠ []
  | .arr xs => !xs.isEmpty
  | .obj fs => !fs.isEmpty

/-- Decimal digits of a natural number, most significant first. -/
def natDigits (n : Nat) : Chars := Nat.toDigits 10 n

/-- Pad a digit string on the left with zeros up to width `k`. -/
def padZeros (k : Nat) (s : Chars) : Chars :=
  List.replicate (k - s.length) '0' ++ s

/-- Round `q` to `k` decimal places, returning the scaled integer
`round(q * 10^k)` with ties to even, as `float.__format__` rounds.
Computed on the numerator and denominator directly: with `n = num * 10^k`
and `d = den`, the floor of `n/d` is the flooring division and the
fractional remainder `r/d` compares to one half by comparing `2r` to `d`.
(The model rounds the exact rational; Python rounds the nearest binary
double, which can differ on adversarial decimal ties — no value in the
program or the claims is such a tie.) -/
def roundHE (k : Nat) (q : ℚ) : ℤ :=
  let n := q.num * (10 : ℤ) ^ k
  let d : ℤ := (q.den : ℤ)
  let fl := Int.fdiv n d
  let r := n - fl * d
  if 2 * r < d then fl
  else if d < 2 * r then fl + 1
  else if fl % 2 = 0 then fl else fl + 1

/-- Python fixed-point formatting `f"{q:.kf}"` of a numeric value.  (For a
negative value rounding to zero Python prints a negative zero, a corner the
rational model folds to `0.000…`; no claim involves it.) -/
def fmtFixed (k : Nat) (q : ℚ) : Chars :=
  let n := roundHE k q
  let m := n.natAbs
  let base := (10 : Nat) ^ k
  (if n < 0 then ['-'] else []) ++ natDigits (m / base) ++
    (if k = 0 then [] else '.' :: padZeros k (natDigits (m % base)))

/-- Comma-group a digit string every three digits from the right
(the `,` option of Python format specs). -/
def groupDigits (ds : Chars) : Chars :=
  let rec go : Chars → Nat → Chars
    | [], _ => []
    | c :: rest, i =>
      (if i = 3 then [','] else []) ++ c :: go rest (if i = 3 then 1 else i + 1)
  (go ds.reverse 0).reverse

/-- Smallest `k ≤ 39` with `den ∣ 10^k`; every number produced by
`jsonLoads` has such a `k` (its denominator divides a power of ten). -/
def decExpOf (den : Nat) : Option Nat :=
  (List.range 40).find? (fun k => 10 ^ k % den = 0)

/-- Integer and fractional digit strings of the absolute value of a
terminating rational (the sign is handled by the caller), the fraction
trimmed of trailing zeros but kept non-empty, as in
the `repr` of a Python float with a short exact decimal form.  (Python
float `repr` is shortest-round-trip on binary doubles and switches to
exponent notation below `1e-4` and at `1e16`; the program's data never
leaves the exact-short-decimal regime where the two agree.) -/
def floatDigits (q : ℚ) : Chars × Chars :=
  match decExpOf q.den with
  | some k =>
    let scale := (10 : Nat) ^ k
    let m := q.num.natAbs * (scale / q.den)
    let fr := (padZeros k (natDigits (m % scale))).reverse.dropWhile (fun c => c = '0')
    (natDigits (m / scale), if fr.reverse = [] then ['0'] else fr.reverse)
  | none => (natDigits q.num.natAbs, ['?'])

/-- Python `str()` / f-string interpolation of a `json.loads` number:
integers print their digits, floats print a decimal point with at least one
fractional digit. -/
def pyNumStr (isFloat : Bool) (q : ℚ) : Chars :=
  let sign : Chars := if q.num < 0 then ['-'] else []
  if isFloat then
    let (ip, fp) := floatDigits q
    sign ++ ip ++ '.' :: fp
  else
    sign ++ natDigits q.num.natAbs

/-- Python `repr` of a JSON-decoded value, as produced when an f-string
interpolates a list or dictionary (string quoting is modelled without
escape sequences; no claim inspects the repr of a container). -/
def pyRepr : JVal → Chars
  | .null => "None".toList
  | .bool b => if b then "True".toList else "False".toList
  | .num f q => pyNumStr f q
  | .str s => Char.ofNat 39 :: s ++ [Char.ofNat 39]
  | .arr xs =>
    '[' :: List.intercalate ", ".toList (xs.attach.map (fun x => pyRepr x.1)) ++ [']']
  | .obj fs =>
    '\x7b' :: List.intercalate ", ".toList (fs.attach.map (fun f =>
        (Char.ofNat 39 :: f.1.1 ++ [Char.ofNat 39]) ++ ": ".toList ++ pyRepr f.1.2)) ++ ['\x7d']
decreasing_by
  · have h1 := List.sizeOf_lt_of_mem x.2
    have h2 : sizeOf (JVal.arr xs) = 1 + sizeOf xs := by simp
    omega
  · have h1 := List.sizeOf_lt_of_mem f.2
    have h2 : sizeOf (JVal.obj fs) = 1 + sizeOf fs := by simp
    have h3 : sizeOf (f.1) = 1 + sizeOf f.1.1 + sizeOf f.1.2 := by
      rcases f with ⟨⟨a, b⟩, hf⟩; simp
    omega

/-- Python `str()` / f-string interpolation of a JSON-decoded value. -/
def pyFStr : JVal → Chars
  | .str s => s
  | .num f q => pyNumStr f q
  | .bool b => if b then "True".toList else "False".toList
  | .null => "None".toList
  | v => pyRepr v

/-- Python `f"{v:.kf}"` for a dictionary value: numbers format as fixed
point, booleans coerce to `0`/`1` through `int.__format__`, every other
type raises (`TypeError`/`ValueError`), modelled as `none`. -/
def pyFormatFixed (k : Nat) (v : JVal) : Option Chars :=
  match v with
  | .num _ q => some (fmtFixed k q)
  | .bool b => some (fmtFixed k (if b then 1 else 0))
  | _ => none

/-- Python `f"{v:,}"`: comma-grouped integer digits, floats keeping their
decimal expansion, booleans coercing to `0`/`1`; other types raise. -/
def pyFormatComma (v : JVal) : Option Chars :=
  match v with
  | .num false q =>
    some ((if q.num < 0 then ['-'] else []) ++ groupDigits (natDigits q.num.natAbs))
  | .num true q =>
    let (ip, fp) := floatDigits q
    some ((if q.num < 0 then ['-'] else []) ++ groupDigits ip ++ '.' :: fp)
  | .bool b => some (if b then ['1'] else ['0'])
  | _ => none

/-- Python `f"{v:,.2f}"`: fixed two decimals with a comma-grouped integer
part. -/
def pyFormatComma2 (v : JVal) : Option Chars :=
  match v with
  | .num _ q =>
    let n := roundHE 2 q
    let m := n.natAbs
    some ((if n < 0 then ['-'] else []) ++ groupDigits (natDigits (m / 100)) ++
      '.' :: padZeros 2 (natDigits (m % 100)))
  | .bool b =>
    some (groupDigits (natDigits (if b then 1 else 0)) ++ '.' :: "00".toList)
  | _ => none

/-! ### The three agents -/

/-- Exceptions that can cross a stage boundary in `app.py`: a
`json.JSONDecodeError` from `json.loads`, a `TypeError`/`AttributeError`
from formatting or attribute access, or any exception raised by the
delegate call itself (network, auth, rate limit — `UpstreamFailure` in the
design vocabulary). -/
inductive PyError where
  | jsonDecode
  | typeErr
  | upstream (msg : Chars)
deriving DecidableEq

/-- Observable outcome of one `client.chat.completions.create` call: the
returned message content, or a raised exception with its message. -/
inductive DelegateResult where
  | ok (content : Chars)
  | err (msg : Chars)

/-- Agent #1 (`run_agent_1`, lines 23-52): sends the base64 document to the
delegate, then normalizes the response and returns `json.loads` of it.  The
call itself is outside any `try`, so a delegate exception propagates; the
parsed value is returned with no field validation. -/
def run_agent_1 (pdf_base64 : Chars) (r : DelegateResult) : Except PyError JVal :=
  match r with
  | .err m => .error (.upstream m)
  | .ok content =>
    match jsonLoads (normalize content) with
    | some v => .ok v
    | none => .error .jsonDecode

/-- The fixed fallback record of `run_agent_2` (lines 83-95), returned when
`json.loads` on the normalized response raises. -/
def fallbackBenchmark : JVal :=
  .obj
    [ ("averageRate".toList, .num true (mkRat 87 1000)),
      ("averageDemandCharge".toList, .num true (mkRat 1550 100)),
      ("typicalUsage".toList,
        .str "50,000-500,000 kWh/month depending on production volume and process intensity".toList),
      ("recommendations".toList, .arr
        [ .str "Implement demand response programs to reduce peak charges".toList,
          .str "Install variable frequency drives (VFDs) on motors".toList,
          .str "Optimize compressed air systems (often 30% energy waste)".toList,
          .str "Upgrade to energy-efficient HVAC for production areas".toList,
          .str "Consider cogeneration/CHP for large facilities".toList ]),
      ("sources".toList, .arr
        [ .str "U.S. DOE Industrial Technologies Program".toList,
          .str "ENERGY STAR for Industry".toList,
          .str "ISO 50001 Standards".toList ]) ]

/-- Agent #2 (`run_agent_2`, lines 54-95): the delegate call is outside the
`try`, so a raised call propagates; only `json.loads` on the normalized
content is inside `try`, and its failure is answered with
`fallbackBenchmark`.  A decodable response is returned with no field
validation, and no degraded flag exists in the interface.  The `context`
string only shapes the outgoing prompt and cannot affect which branch is
taken. -/
def run_agent_2 (context : Chars) (r : DelegateResult) : Except PyError JVal :=
  match r with
  | .err m => .error (.upstream m)
  | .ok content =>
    match jsonLoads (normalize content) with
    | some v => .ok v
    | none => .ok fallbackBenchmark

/-- Agent #3 (`run_agent_3`, lines 97-119): same shape as agent #1 — the
bill and research records only shape the prompt; the normalized response is
parsed with `json.loads` and returned unvalidated, with no fallback. -/
def run_agent_3 (bill_data research_data : JVal) (r : DelegateResult) : Except PyError JVal :=
  match r with
  | .err m => .error (.upstream m)
  | .ok content =>
    match jsonLoads (normalize content) with
    | some v => .ok v
    | none => .error .jsonDecode

/-! ### The orchestrating handler -/

/-- Key of the extracted rate field. -/
def rateKey : Chars := "ratePerKwh".toList

/-- Key of the extracted usage field. -/
def usageKey : Chars := "usage".toList

/-- The benchmark-query derivation of line 209:
`f"{bill_analysis.get('ratePerKwh', 0.15):.3f} USD/kWh, {bill_analysis.get('usage', 0)} kWh usage"`.
`none` models the exceptions Python would raise there: `AttributeError`
when the decoded bill is not a dictionary, and the `TypeError` of
formatting a non-numeric rate with `:.3f`. -/
def searchContext (bill : JVal) : Option Chars :=
  match bill with
  | .obj fs =>
    let rate := (pyGet fs rateKey).getD (.num true (mkRat 15 100))
    let usage := (pyGet fs usageKey).getD (.num false 0)
    match pyFormatFixed 3 rate with
    | some rs => some (rs ++ " USD/kWh, ".toList ++ pyFStr usage ++ " kWh usage".toList)
    | none => none
  | _ => none

/-- The per-session result store (`st.session_state` keys written by the
handler).  Nothing ever clears it: it persists across invocations of the
handler within a session. -/
structure SessionState where
  bill_analysis : Option JVal
  web_research : Option JVal
  final_report : Option JVal

/-- The session state of a fresh session, before any run. -/
def emptySession : SessionState := ⟨none, none, none⟩

/-- The three pipeline stages. -/
inductive Stage where
  | extractor
  | benchmarker
  | reporter
deriving DecidableEq

/-- Position of a stage in the pipeline order. -/
def stageIdx : Stage → Nat
  | .extractor => 0
  | .benchmarker => 1
  | .reporter => 2

/-- The session-state field a stage's result is stored in. -/
def storedField (st : SessionState) : Stage → Option JVal
  | .extractor => st.bill_analysis
  | .benchmarker => st.web_research
  | .reporter => st.final_report

/-- Result of one click of "Run Analysis with All 3 Agents": the session
state after the handler returns, which delegate calls were actually issued,
and — when some step raised — the stage whose spinner block raised together
with the exception, which line 220 surfaces as an error message (the
line-209 context derivation runs inside the agent-#2 spinner, so its
exceptions are attributed to the benchmarker without that delegate being
called). -/
structure HandlerResult where
  state : SessionState
  ran : List Stage
  failed : Option (Stage × PyError)

/-- The "Run Analysis" click handler (lines 199-220): the three stages in
sequence inside one `try`, each result written to `st.session_state`
immediately after its stage returns, and any exception caught at line 219
and surfaced as an error message.  The session state is never reset first.
-/
def runHandler (st : SessionState) (pdf_base64 : Chars)
    (r1 r2 r3 : DelegateResult) : HandlerResult :=
  match run_agent_1 pdf_base64 r1 with
  | .error e => ⟨st, [.extractor], some (.extractor, e)⟩
  | .ok bill =>
    let st1 : SessionState := { st with bill_analysis := some bill }
    match searchContext bill with
    | none => ⟨st1, [.extractor], some (.benchmarker, .typeErr)⟩
    | some ctx =>
      match run_agent_2 ctx r2 with
      | .error e => ⟨st1, [.extractor, .benchmarker], some (.benchmarker, e)⟩
      | .ok web =>
        let st2 : SessionState := { st1 with web_research := some web }
        match run_agent_3 bill web r3 with
        | .error e => ⟨st2, [.extractor, .benchmarker, .reporter], some (.reporter, e)⟩
        | .ok rep =>
          ⟨{ st2 with final_report := some rep }, [.extractor, .benchmarker, .reporter], none⟩

/-! ### The result-display step -/

/-- Elements produced by a Python `for x in v:` loop over a JSON-decoded
value: a list yields its elements, a string yields its characters (each a
one-character string), anything else raises `TypeError` (`none`). -/
def pyIter (v : JVal) : Option (List JVal) :=
  match v with
  | .arr xs => some xs
  | .str s => some (s.map (fun c => .str [c]))
  | _ => none

/-- What the "Agent #1: Bill Analysis" expander (lines 227-245) puts on
screen: the six metric strings, the raw value shown as the billing period,
the unusual-charges items listed under the warning (empty when the guard at
line 239 is falsy), and the insights value when the guard at line 244 is
truthy. -/
structure BillRendering where
  totalCost : Chars
  usage : Chars
  demandKw : Chars
  powerFactor : Chars
  ratePerKwh : Chars
  billingPeriod : JVal
  unusualCharges : List JVal
  insights : Option JVal

/-- The `if data.get(k):` + `for item in data[k]` idiom of the
unusual-charges section: absent key gives the falsy `None` and the section
is skipped (no items); a present falsy value is likewise skipped;
a present truthy value is iterated. -/
def guardedIter (o : Option JVal) : Option (List JVal) :=
  match o with
  | none => some []
  | some v => if pyTruthy v then pyIter v else some []

/-- The `if data.get(k): st.info(...)` idiom of the insights section:
shown exactly when the (defaulted-to-`None`) value is truthy. -/
def guardedShow (o : Option JVal) : Option JVal :=
  match o with
  | none => none
  | some v => if pyTruthy v then some v else none

/-- The bill-analysis display (lines 227-245).  Every read goes through
`data.get` with a fixed default: numeric metrics default to `0`,
`billingPeriod` to `'N/A'`, and the two guarded sections use the `None`
default of one-argument `get`, whose falsiness skips the section.  `none`
models the exceptions Python would raise: `AttributeError` on a non-dict
record, `TypeError`/`ValueError` from a format spec on a non-numeric value,
`TypeError` from iterating a non-iterable, and `st.metric` rejecting a
container as the billing-period value. -/
def renderBill (data : JVal) : Option BillRendering :=
  match data with
  | .obj fs => do
    let tc ← pyFormatComma2 ((pyGet fs "totalCost".toList).getD (.num false 0))
    let us ← pyFormatComma ((pyGet fs usageKey).getD (.num false 0))
    let dk ← pyFormatComma ((pyGet fs "demandKw".toList).getD (.num false 0))
    let pf ← pyFormatFixed 2 ((pyGet fs "powerFactor".toList).getD (.num false 0))
    let rk ← pyFormatFixed 4 ((pyGet fs rateKey).getD (.num false 0))
    let bp := (pyGet fs "billingPeriod".toList).getD (.str "N/A".toList)
    match bp with
    | .arr _ => none
    | .obj _ => none
    | _ => do
      let charges ← guardedIter (pyGet fs "unusualCharges".toList)
      let ins := guardedShow (pyGet fs "insights".toList)
      some ⟨'$' :: tc, us ++ " kWh".toList, dk ++ " kW".toList, pf, '$' :: rk,
        bp, charges, ins⟩
  | _ => none

/-- What the "Agent #3: Final Report" expander (lines 261-277) puts on
screen: the two written values and the two iterated lists. -/
structure ReportRendering where
  summary : JVal
  comparison : JVal
  savings : List JVal
  nextSteps : List JVal

/-- The final-report display (lines 261-277).  `st.write` accepts any
value, so the only exceptions come from iterating a non-iterable in the
two loops (and from a non-dict record). -/
def renderReport (data : JVal) : Option ReportRendering :=
  match data with
  | .obj fs => do
    let sm := (pyGet fs "summary".toList).getD (.str [])
    let cp := (pyGet fs "comparison".toList).getD (.str [])
    let sv ← pyIter ((pyGet fs "savings".toList).getD (.arr []))
    let ns ← pyIter ((pyGet fs "nextSteps".toList).getD (.arr []))
    some ⟨sm, cp, sv, ns⟩
  | _ => none

/-! ### Typing shapes and concrete inputs used by the theorems -/

/-- The numeric value of a JSON number (zero on other shapes); used only
to state the derived-query formula. -/
def numValOf : JVal → ℚ
  | .num _ q => q
  | _ => 0

/-- A stored field is absent or holds a JSON number. -/
def numOrAbsent (fs : List (Chars × JVal)) (k : Chars) : Prop :=
  pyGet fs k = none ∨ ∃ f q, pyGet fs k = some (.num f q)

/-- A stored field is absent or holds a JSON string. -/
def strOrAbsent (fs : List (Chars × JVal)) (k : Chars) : Prop :=
  pyGet fs k = none ∨ ∃ s, pyGet fs k = some (.str s)

/-- A stored field is absent or holds a JSON array. -/
def arrOrAbsent (fs : List (Chars × JVal)) (k : Chars) : Prop :=
  pyGet fs k = none ∨ ∃ xs, pyGet fs k = some (.arr xs)

/-- A delegate response used as a well-formed Extractor result. -/
def sampleBillJson : Chars :=
  "\x7b\"ratePerKwh\": 0.5, \"usage\": 100\x7d".toList

/-- The value `json.loads` gives for `sampleBillJson`. -/
def sampleBillVal : JVal :=
  .obj [(rateKey, .num true (mkRat 1 2)), (usageKey, .num false 100)]

/-- The benchmark query derived from `sampleBillVal`. -/
def sampleCtx : Chars := "0.500 USD/kWh, 100 kWh usage".toList

/-- A delegate response used as a well-formed Benchmarker result. -/
def sampleBenchJson : Chars := "\x7b\"averageRate\": 0.1\x7d".toList

/-- The value `json.loads` gives for `sampleBenchJson`. -/
def sampleBenchVal : JVal := .obj [("averageRate".toList, .num true (mkRat 1 10))]

/-- A decodable Reporter response that is missing the required `nextSteps`
field (the truncated-report scenario of the specification). -/
def partialReportJson : Chars := "\x7b\"summary\": \"ok\"\x7d".toList

/-- The value `json.loads` gives for `partialReportJson`. -/
def partialReportVal : JVal := .obj [("summary".toList, .str "ok".toList)]

/-- The decodable but schema-empty response used against the validation
claims. -/
def emptyObjJson : Chars := "\x7b\x7d".toList

/-- A session in which a previous invocation left a final report behind. -/
def staleSession : SessionState := ⟨none, none, some (.str "stale".toList)⟩

/-! ### Lemmas on the normalization function -/

lemma isPfx_trans : ∀ a b c : Chars, isPfx a b = true → isPfx b c = true →
    isPfx a c = true
  | [], _, _, _, _ => rfl
  | _ :: _, [], _, h1, _ => by simp [isPfx] at h1
  | _ :: _, _ :: _, [], _, h2 => by simp [isPfx] at h2
  | a :: as, b :: bs, c :: cs, h1, h2 => by
    simp only [isPfx, Bool.and_eq_true, decide_eq_true_eq] at h1 h2 ⊢
    exact ⟨h1.1.trans h2.1, isPfx_trans as bs cs h1.2 h2.2⟩

lemma isPfx_append_left : ∀ a b s : Chars, isPfx (a ++ b) s = true → isPfx a s = true
  | [], _, _, _ => rfl
  | _ :: _, _, [], h => by simp [isPfx] at h
  | a :: as, b, c :: cs, h => by
    simp only [List.cons_append, isPfx, Bool.and_eq_true, decide_eq_true_eq] at h ⊢
    exact ⟨h.1, isPfx_append_left as b cs h.2⟩

lemma hasPat_nil : ∀ m : Chars, hasPat [] m = true
  | [] => rfl
  | _ :: rest => by simp [hasPat, isPfx, hasPat_nil rest]

/-- A substring of a list is a substring of any list the former is a
prefix of. -/
lemma hasPat_of_isPfx (p : Chars) : ∀ X m : Chars, isPfx X m = true →
    hasPat p X = true → hasPat p m = true
  | [], m, _, h2 => by
    cases p with
    | nil => exact hasPat_nil m
    | cons c cs => simp [hasPat, isPfx] at h2
  | _ :: _, [], h1, _ => by simp [isPfx] at h1
  | x :: xs, y :: ys, h1, h2 => by
    simp only [isPfx, Bool.and_eq_true, decide_eq_true_eq] at h1
    simp only [hasPat, Bool.or_eq_true] at h2 ⊢
    rcases h2 with h2 | h2
    · exact Or.inl (isPfx_trans p (x :: xs) (y :: ys) h2
        (by simp [isPfx, h1.1, h1.2]))
    · exact Or.inr (hasPat_of_isPfx p xs ys h1.2 h2)

lemma hasPat_dropLeadWs (p : Chars) : ∀ m : Chars,
    hasPat p (dropLeadWs m) = true → hasPat p m = true
  | [], h => h
  | c :: rest, h => by
    by_cases hw : isPyWs c = true
    · simp only [dropLeadWs, hw, if_true] at h
      simp only [hasPat, Bool.or_eq_true]
      exact Or.inr (hasPat_dropLeadWs p rest h)
    · simpa only [dropLeadWs, hw, if_false] using h

lemma dropTrailWs_isPfx : ∀ m : Chars, isPfx (dropTrailWs m) m = true
  | [] => rfl
  | c :: rest => by
    have ih := dropTrailWs_isPfx rest
    cases h : dropTrailWs rest with
    | nil =>
      by_cases hw : isPyWs c = true
      · simp [dropTrailWs, h, hw, isPfx]
      · simp [dropTrailWs, h, hw, isPfx]
    | cons x xs =>
      rw [h] at ih
      simp [dropTrailWs, h, isPfx, ih]

lemma hasPat_pyStrip (p u : Chars) (h : hasPat p (pyStrip u) = true) :
    hasPat p u = true := by
  have h1 : hasPat p (dropLeadWs u) = true :=
    hasPat_of_isPfx p _ _ (dropTrailWs_isPfx (dropLeadWs u)) h
  exact hasPat_dropLeadWs p u h1

lemma dropLeadWs_idem : ∀ s : Chars, dropLeadWs (dropLeadWs s) = dropLeadWs s
  | [] => rfl
  | c :: rest => by
    by_cases hw : isPyWs c = true
    · simp [dropLeadWs, hw, dropLeadWs_idem rest]
    · simp [dropLeadWs, hw]

lemma dropLeadWs_head : ∀ s : Chars,
    dropLeadWs s = [] ∨ ∃ c rest, dropLeadWs s = c :: rest ∧ isPyWs c = false
  | [] => Or.inl rfl
  | c :: rest => by
    by_cases hw : isPyWs c = true
    · simpa [dropLeadWs, hw] using dropLeadWs_head rest
    · exact Or.inr ⟨c, rest, by simp [dropLeadWs, hw], by simpa using hw⟩

lemma dropTrailWs_cons (c : Char) (rest : Chars) :
    dropTrailWs (c :: rest) =
      match dropTrailWs rest with
      | [] => if isPyWs c then [] else [c]
      | r => c :: r := rfl

lemma dropTrailWs_idem : ∀ s : Chars, dropTrailWs (dropTrailWs s) = dropTrailWs s
  | [] => rfl
  | c :: rest => by
    have ih := dropTrailWs_idem rest
    cases h : dropTrailWs rest with
    | nil =>
      have e : dropTrailWs (c :: rest) = if isPyWs c then [] else [c] := by
        rw [dropTrailWs_cons, h]
      cases hw : isPyWs c with
      | true =>
        rw [e, if_pos hw]
        rfl
      | false =>
        have e2 : dropTrailWs [c] = if isPyWs c then [] else [c] := rfl
        rw [e, if_neg (by simp [hw]), e2, if_neg (by simp [hw])]
    | cons x xs =>
      rw [h] at ih
      have e3 : dropTrailWs (c :: rest) = c :: x :: xs := by
        rw [dropTrailWs_cons, h]
      rw [e3, dropTrailWs_cons, ih]

lemma dropTrailWs_head (c : Char) (X : Chars) :
    dropTrailWs (c :: X) = [] ∨ ∃ Y, dropTrailWs (c :: X) = c :: Y := by
  cases h : dropTrailWs X with
  | nil =>
    by_cases hw : isPyWs c = true
    · exact Or.inl (by simp [dropTrailWs, h, hw])
    · exact Or.inr ⟨[], by simp [dropTrailWs, h, hw]⟩
  | cons x xs => exact Or.inr ⟨x :: xs, by simp [dropTrailWs, h]⟩

lemma pyStrip_idem (s : Chars) : pyStrip (pyStrip s) = pyStrip s := by
  unfold pyStrip
  have key : dropLeadWs (dropTrailWs (dropLeadWs s)) = dropTrailWs (dropLeadWs s) := by
    rcases dropLeadWs_head s with h | ⟨c, rest, hEq, hw⟩
    · rw [h]; rfl
    · rw [hEq]
      rcases dropTrailWs_head c rest with h2 | ⟨Y, h2⟩
      · rw [h2]; rfl
      · rw [h2]; simp [dropLeadWs, hw]
  rw [key, dropTrailWs_idem]

lemma replGo_fuel_zero (pat : Chars) : ∀ m : Chars, replGo pat 0 m = m
  | [] => rfl
  | _ :: _ => rfl

lemma replGo_cons (pat : Chars) (fuel : Nat) (c : Char) (rest : Chars) :
    replGo pat (fuel + 1) (c :: rest) =
      if pat ≠ [] ∧ isPfx pat (c :: rest) then
        replGo pat fuel ((c :: rest).drop pat.length)
      else c :: replGo pat fuel rest := rfl

lemma isPfx_cons (a b : Char) (as bs : Chars) :
    isPfx (a :: as) (b :: bs) = (decide (a = b) && isPfx as bs) := rfl

lemma hasPat_cons (p : Chars) (c : Char) (rest : Chars) :
    hasPat p (c :: rest) = (isPfx p (c :: rest) || hasPat p rest) := rfl

lemma fence_eq : fence = tick :: [tick, tick] := rfl

lemma replGo_head_tick : ∀ (fuel : Nat) (m : Chars),
    isPfx [tick] (replGo fence fuel m) = true → isPfx [tick] m = true
  | 0, m, h => by rwa [replGo_fuel_zero] at h
  | _ + 1, [], h => by simp [replGo, isPfx] at h
  | fuel + 1, c :: rest, h => by
    by_cases hc : fence ≠ [] ∧ isPfx fence (c :: rest) = true
    · have hc2 : tick = c ∧ isPfx [tick, tick] rest = true := by
        have h2 := hc.2
        rw [fence_eq, isPfx_cons] at h2
        simpa using h2
      rw [isPfx_cons]
      simp [isPfx, hc2.1]
    · rw [replGo_cons, if_neg (by simpa using hc)] at h
      rw [isPfx_cons] at h ⊢
      simp only [Bool.and_eq_true, decide_eq_true_eq] at h ⊢
      exact ⟨h.1, rfl⟩

lemma replGo_head_tick2 : ∀ (fuel : Nat) (m : Chars),
    isPfx [tick, tick] (replGo fence fuel m) = true → isPfx [tick, tick] m = true
  | 0, m, h => by rwa [replGo_fuel_zero] at h
  | _ + 1, [], h => by simp [replGo, isPfx] at h
  | fuel + 1, c :: rest, h => by
    by_cases hc : fence ≠ [] ∧ isPfx fence (c :: rest) = true
    · have hc2 : tick = c ∧ isPfx [tick, tick] rest = true := by
        have h2 := hc.2
        rw [fence_eq, isPfx_cons] at h2
        simpa using h2
      rcases hc2 with ⟨e1, hrest⟩
      cases rest with
      | nil => simp [isPfx] at hrest
      | cons r rs =>
        have h3 : tick = r ∧ isPfx [tick] rs = true := by
          rw [isPfx_cons] at hrest
          simpa using hrest
        rw [isPfx_cons]
        simp only [Bool.and_eq_true, decide_eq_true_eq]
        refine ⟨e1, ?_⟩
        rw [isPfx_cons]
        simp [isPfx, h3.1]
    · rw [replGo_cons, if_neg (by simpa using hc)] at h
      rw [isPfx_cons] at h ⊢
      simp only [Bool.and_eq_true, decide_eq_true_eq] at h ⊢
      exact ⟨h.1, replGo_head_tick fuel rest h.2⟩

/-- After one pass of the backtick-fence removal no triple backtick
remains: the scan removes matches left to right, and within a backtick run
at most two consecutive backticks survive, so removals never rejoin into a
new match. -/
lemma replGo_no_fence : ∀ (fuel : Nat) (m : Chars), m.length ≤ fuel →
    hasPat fence (replGo fence fuel m) = false
  | 0, m, hf => by
    have : m = [] := List.length_eq_zero.mp (Nat.le_zero.mp hf)
    subst this
    rfl
  | _ + 1, [], _ => rfl
  | fuel + 1, c :: rest, hf => by
    by_cases hc : fence ≠ [] ∧ isPfx fence (c :: rest) = true
    · have hdrop : ((c :: rest).drop fence.length).length ≤ fuel := by
        have hl : fence.length = 3 := rfl
        rw [List.length_drop, hl]
        simp only [List.length_cons] at hf ⊢
        omega
      rw [replGo_cons, if_pos (by simpa using hc)]
      exact replGo_no_fence fuel _ hdrop
    · have hrest : rest.length ≤ fuel := by
        simp only [List.length_cons] at hf
        omega
      have ih := replGo_no_fence fuel rest hrest
      rw [replGo_cons, if_neg (by simpa using hc)]
      have hI : isPfx fence (c :: replGo fence fuel rest) = false := by
        by_contra habs
        rw [Bool.not_eq_false] at habs
        have habs' : (decide (tick = c) && isPfx [tick, tick] (replGo fence fuel rest)) = true :=
          habs
        simp only [Bool.and_eq_true, decide_eq_true_eq] at habs'
        have h2 := replGo_head_tick2 fuel rest habs'.2
        apply hc
        constructor
        · decide
        · show isPfx fence (c :: rest) = true
          cases habs'.1
          have h4 : (decide (tick = tick) && isPfx [tick, tick] rest) = true := by
            simp [h2]
          exact h4
      rw [hasPat_cons, hI, ih]
      rfl

lemma replGo_id (pat : Chars) : ∀ (fuel : Nat) (m : Chars),
    hasPat pat m = false → replGo pat fuel m = m
  | 0, m, _ => replGo_fuel_zero pat m
  | _ + 1, [], _ => rfl
  | fuel + 1, c :: rest, h => by
    rw [hasPat_cons] at h
    have h1 : isPfx pat (c :: rest) = false ∧ hasPat pat rest = false := by
      constructor
      · cases hx : isPfx pat (c :: rest) with
        | false => rfl
        | true => rw [hx, Bool.true_or] at h; exact absurd h (by simp)
      · cases hx : hasPat pat rest with
        | false => rfl
        | true => rw [hx, Bool.or_true] at h; exact absurd h (by simp)
    have hc : ¬(pat ≠ [] ∧ isPfx pat (c :: rest) = true) := by
      rintro ⟨-, h2⟩
      rw [h1.1] at h2
      exact Bool.false_ne_true h2
    rw [replGo_cons, if_neg (by simpa using hc)]
    rw [replGo_id pat fuel rest h1.2]

lemma pyReplace_no_fence (m : Chars) : hasPat fence (pyReplace fence m) = false :=
  replGo_no_fence m.length m le_rfl

lemma pyReplace_id (pat m : Chars) (h : hasPat pat m = false) :
    pyReplace pat m = m :=
  replGo_id pat m.length m h

lemma hasPat_fenceJson_of_fence : ∀ m : Chars,
    hasPat fenceJson m = true → hasPat fence m = true
  | [], h => by simp [hasPat, fenceJson, isPfx] at h
  | c :: rest, h => by
    simp only [hasPat, Bool.or_eq_true] at h ⊢
    rcases h with h | h
    · exact Or.inl (isPfx_append_left fence "json".toList (c :: rest)
        (by rwa [show fence ++ "json".toList = fenceJson from rfl]))
    · exact Or.inr (hasPat_fenceJson_of_fence rest h)

/-- Idempotence of the response normalization (claim C8): after one
application the result contains no `` ```json `` and no `` ``` `` marker
and carries no surrounding whitespace, so a second application is the
identity on it. -/
theorem C8_normalize_idempotent (s : Chars) :
    normalize (normalize s) = normalize s := by
  unfold normalize
  set u := pyReplace fence (pyReplace fenceJson s) with hu
  have h3 : hasPat fence (pyStrip u) = false := by
    cases h : hasPat fence (pyStrip u) with
    | false => rfl
    | true =>
      have := hasPat_pyStrip fence u h
      rw [hu, pyReplace_no_fence] at this
      exact absurd this (by simp)
  have h7 : hasPat fenceJson (pyStrip u) = false := by
    cases h : hasPat fenceJson (pyStrip u) with
    | false => rfl
    | true =>
      have := hasPat_fenceJson_of_fence _ h
      rw [h3] at this
      exact absurd this (by simp)
  rw [pyReplace_id fenceJson _ h7, pyReplace_id fence _ h3, pyStrip_idem]

/-! ### Claim C1 — Extractor validation -/

/-- Counterexample to claim C1: on the decodable delegate response
consisting of an empty JSON object, the Extractor neither fails nor
returns a record carrying the required `ratePerKwh` and `usage` fields —
it returns the empty record, so `extract` can return a value missing
required fields. -/
theorem C1_counterexample :
    ¬ ((∃ e, run_agent_1 [] (.ok emptyObjJson) = .error e) ∨
      (∃ fs, run_agent_1 [] (.ok emptyObjJson) = .ok (.obj fs) ∧
        pyGet fs rateKey ≠ none ∧ pyGet fs usageKey ≠ none)) := by
  have hrun : run_agent_1 [] (.ok emptyObjJson) = .ok (.obj []) := rfl
  rintro (⟨e, he⟩ | ⟨fs, hfs, hr, hu⟩)
  · rw [hrun] at he
    exact Except.noConfusion he
  · rw [hrun] at hfs
    have hfs' : ([] : List (Chars × JVal)) = fs := by
      have h1 := Except.ok.inj hfs
      exact JVal.obj.inj h1
    subst hfs'
    exact hr rfl

/-- Claim C1 as amended: the Extractor performs no schema validation — it
returns the parsed JSON of the normalized response exactly as decoded,
missing required fields included, and fails only on a JSON decode error or
on an exception raised by the delegate call itself. -/
theorem C1_extract_returns_unvalidated_json (pdf : Chars) (r : DelegateResult) :
    (∀ m, r = .err m → run_agent_1 pdf r = .error (.upstream m)) ∧
    (∀ content, r = .ok content →
      (jsonLoads (normalize content) = none →
        run_agent_1 pdf r = .error .jsonDecode) ∧
      (∀ v, jsonLoads (normalize content) = some v →
        run_agent_1 pdf r = .ok v)) := by
  refine ⟨?_, ?_⟩
  · rintro m rfl
    rfl
  · rintro content rfl
    refine ⟨?_, ?_⟩
    · intro h
      simp [run_agent_1, h]
    · intro v h
      simp [run_agent_1, h]

/-- Witness for the amended C1 at a concrete input: the empty-object
response decodes and is passed through as-is. -/
theorem C1_witness : run_agent_1 [] (.ok emptyObjJson) = .ok (.obj []) :=
  ((C1_extract_returns_unvalidated_json [] (.ok emptyObjJson)).2
    emptyObjJson rfl).2 (.obj []) rfl

/-! ### Claim C2 — Benchmarker fallback -/

/-- Counterexample to claim C2: the empty JSON object fails BenchmarkFacts
schema validation (it has no `averageRate`, `recommendations`, … fields),
yet the Benchmarker does not return the documented fallback record for it —
it passes the empty record through; and its result type carries no degraded
flag at all. -/
theorem C2_counterexample :
    ¬ (run_agent_2 [] (.ok emptyObjJson) = .ok fallbackBenchmark) := by
  intro h
  have hrun : run_agent_2 [] (.ok emptyObjJson) = .ok (.obj []) := rfl
  rw [hrun] at h
  have h1 := JVal.obj.inj (Except.ok.inj h)
  simp [fallbackBenchmark] at h1

/-- Claim C2 as amended: only a JSON decode failure of the delegate content
triggers the fallback — an undecodable response yields exactly the fixed
fallback record and is not a failure, while any decodable response is
returned as-is even when it is missing required BenchmarkFacts fields; no
degraded flag exists, the fallback result being distinguishable only by its
content. -/
theorem C2_fallback_on_decode_failure (context content : Chars) :
    (jsonLoads (normalize content) = none →
      run_agent_2 context (.ok content) = .ok fallbackBenchmark) ∧
    (∀ v, jsonLoads (normalize content) = some v →
      run_agent_2 context (.ok content) = .ok v) := by
  refine ⟨?_, ?_⟩
  · intro h
    simp [run_agent_2, h]
  · intro v h
    simp [run_agent_2, h]

/-- Witness for the amended C2 at a concrete input: a prose (undecodable)
response produces exactly the fallback record. -/
theorem C2_witness :
    run_agent_2 [] (.ok "benchmark data is unavailable".toList) =
      .ok fallbackBenchmark :=
  (C2_fallback_on_decode_failure [] "benchmark data is unavailable".toList).1 rfl

/-! ### Claim C3 — Reporter schema failure -/

/-- Counterexample to claim C3: a decodable Reporter response missing
`nextSteps` does not raise — the run completes with no recorded failure and
the truncated record stored as the final report. -/
theorem C3_counterexample :
    pyGet [("summary".toList, JVal.str "ok".toList)] "nextSteps".toList = none ∧
    (runHandler emptySession [] (.ok sampleBillJson) (.ok sampleBenchJson)
      (.ok partialReportJson)).failed = none ∧
    (runHandler emptySession [] (.ok sampleBillJson) (.ok sampleBenchJson)
      (.ok partialReportJson)).state.final_report ≠ none := by
  refine ⟨rfl, rfl, ?_⟩
  have e : (runHandler emptySession [] (.ok sampleBillJson) (.ok sampleBenchJson)
      (.ok partialReportJson)).state.final_report = some partialReportVal := rfl
  rw [e]
  simp

/-- Claim C3 as amended: only a JSON decode failure of the Reporter
response fails the run; it then ends with the extractor and benchmarker
results stored, the report still absent (in a session that had none), the
failure recorded against the reporter, and no fallback substituted. -/
theorem C3_reporter_decode_failure_ends_run (st : SessionState)
    (pdf r1c r2c r3c : Chars) (v1 v2 : JVal) (ctx : Chars)
    (h1 : jsonLoads (normalize r1c) = some v1)
    (hctx : searchContext v1 = some ctx)
    (h2 : jsonLoads (normalize r2c) = some v2)
    (h3 : jsonLoads (normalize r3c) = none)
    (hst : st.final_report = none) :
    runHandler st pdf (.ok r1c) (.ok r2c) (.ok r3c) =
      ⟨⟨some v1, some v2, none⟩, [.extractor, .benchmarker, .reporter],
        some (.reporter, .jsonDecode)⟩ := by
  obtain ⟨b, w, f⟩ := st
  simp only [SessionState.final_report] at hst
  subst hst
  simp [runHandler, run_agent_1, run_agent_2, run_agent_3, h1, h2, h3, hctx]

/-- Witness for the amended C3 at concrete inputs: an undecodable reporter
response after two successful stages leaves both earlier results stored and
no report. -/
theorem C3_witness :
    runHandler emptySession [] (.ok sampleBillJson) (.ok sampleBenchJson)
        (.ok "report generation went sideways".toList) =
      ⟨⟨some sampleBillVal, some sampleBenchVal, none⟩,
        [.extractor, .benchmarker, .reporter], some (.reporter, .jsonDecode)⟩ :=
  C3_reporter_decode_failure_ends_run emptySession []
    sampleBillJson sampleBenchJson "report generation went sideways".toList
    sampleBillVal sampleBenchVal sampleCtx rfl rfl rfl rfl rfl

/-! ### Claim C5 — Fresh run state -/

/-- Counterexample to claim C5: the handler never starts a fresh record —
with a final report left over from a previous invocation, a run that fails
at the very first stage still exposes a populated later-stage field. -/
theorem C5_counterexample :
    (runHandler staleSession [] (.err "boom".toList) (.ok sampleBenchJson)
      (.ok partialReportJson)).failed =
        some (.extractor, .upstream "boom".toList) ∧
    (runHandler staleSession [] (.err "boom".toList) (.ok sampleBenchJson)
      (.ok partialReportJson)).state.final_report ≠ none := by
  refine ⟨rfl, ?_⟩
  have e : (runHandler staleSession [] (.err "boom".toList) (.ok sampleBenchJson)
      (.ok partialReportJson)).state.final_report = some (.str "stale".toList) := rfl
  rw [e]
  simp

/-- Claim C5 as amended: only for a session whose state starts empty does a
failed run leave the failed stage's field and every later field
unpopulated; session state is never reset, so the guarantee does not
survive earlier invocations. -/
theorem C5_fresh_session_no_late_fields (pdf : Chars) (r1 r2 r3 : DelegateResult)
    (s : Stage) (e : PyError)
    (hf : (runHandler emptySession pdf r1 r2 r3).failed = some (s, e)) :
    ∀ s', stageIdx s ≤ stageIdx s' →
      storedField (runHandler emptySession pdf r1 r2 r3).state s' = none := by
  rcases ha1 : run_agent_1 pdf r1 with e1 | bill
  · have key : runHandler emptySession pdf r1 r2 r3 =
        ⟨emptySession, [.extractor], some (.extractor, e1)⟩ := by
      simp [runHandler, ha1]
    rw [key] at hf ⊢
    simp only [Option.some.injEq, Prod.mk.injEq] at hf
    obtain ⟨hs, -⟩ := hf
    subst hs
    intro s' _
    cases s' <;> rfl
  · rcases hctx : searchContext bill with - | ctx
    · have key : runHandler emptySession pdf r1 r2 r3 =
          ⟨{ emptySession with bill_analysis := some bill }, [.extractor],
            some (.benchmarker, .typeErr)⟩ := by
        simp [runHandler, ha1, hctx]
      rw [key] at hf ⊢
      simp only [Option.some.injEq, Prod.mk.injEq] at hf
      obtain ⟨hs, -⟩ := hf
      subst hs
      intro s' hle
      cases s' with
      | extractor => simp [stageIdx] at hle
      | benchmarker => rfl
      | reporter => rfl
    · rcases ha2 : run_agent_2 ctx r2 with e2 | web
      · have key : runHandler emptySession pdf r1 r2 r3 =
            ⟨{ emptySession with bill_analysis := some bill },
              [.extractor, .benchmarker], some (.benchmarker, e2)⟩ := by
          simp [runHandler, ha1, hctx, ha2]
        rw [key] at hf ⊢
        simp only [Option.some.injEq, Prod.mk.injEq] at hf
        obtain ⟨hs, -⟩ := hf
        subst hs
        intro s' hle
        cases s' with
        | extractor => simp [stageIdx] at hle
        | benchmarker => rfl
        | reporter => rfl
      · rcases ha3 : run_agent_3 bill web r3 with e3 | rep
        · have key : runHandler emptySession pdf r1 r2 r3 =
              ⟨⟨some bill, some web, none⟩,
                [.extractor, .benchmarker, .reporter], some (.reporter, e3)⟩ := by
            simp [runHandler, ha1, hctx, ha2, ha3, emptySession]
          rw [key] at hf ⊢
          simp only [Option.some.injEq, Prod.mk.injEq] at hf
          obtain ⟨hs, -⟩ := hf
          subst hs
          intro s' hle
          cases s' with
          | extractor => simp [stageIdx] at hle
          | benchmarker => simp [stageIdx] at hle
          | reporter => rfl
        · have key : runHandler emptySession pdf r1 r2 r3 =
              ⟨⟨some bill, some web, some rep⟩,
                [.extractor, .benchmarker, .reporter], none⟩ := by
            simp [runHandler, ha1, hctx, ha2, ha3, emptySession]
          rw [key] at hf
          simp at hf

/-- Witness for the amended C5 at a concrete input: a run from a fresh
session failing at the extractor leaves the report field empty. -/
theorem C5_witness :
    storedField (runHandler emptySession [] (.err "x".toList)
      (.ok sampleBenchJson) (.ok partialReportJson)).state Stage.reporter = none :=
  C5_fresh_session_no_late_fields [] (.err "x".toList) (.ok sampleBenchJson)
    (.ok partialReportJson) .extractor (.upstream "x".toList) rfl
    Stage.reporter (by simp [stageIdx])

/-! ### Claim C6 — Upstream failures are not recovered -/

/-- Claim C6: a raised Benchmarker delegate call (network, auth, rate
limit) is not recovered by the fallback — the agent propagates it, and the
run fails at the benchmarker with the web-research field left exactly as it
was, never set to the fallback record. -/
theorem C6_upstream_failure_fails_run :
    (∀ ctx m, run_agent_2 ctx (.err m) = .error (.upstream m)) ∧
    (∀ (st : SessionState) (pdf : Chars) (r1 r3 : DelegateResult)
      (v1 : JVal) (ctx m : Chars),
      run_agent_1 pdf r1 = .ok v1 → searchContext v1 = some ctx →
      (runHandler st pdf r1 (.err m) r3).failed =
          some (.benchmarker, .upstream m) ∧
        (runHandler st pdf r1 (.err m) r3).state.web_research =
          st.web_research) := by
  refine ⟨fun ctx m => rfl, ?_⟩
  intro st pdf r1 r3 v1 ctx m h1 hctx
  have key : runHandler st pdf r1 (.err m) r3 =
      ⟨{ st with bill_analysis := some v1 }, [.extractor, .benchmarker],
        some (.benchmarker, .upstream m)⟩ := by
    simp [runHandler, h1, hctx, run_agent_2]
  rw [key]
  exact ⟨rfl, rfl⟩

/-- Witness for C6 at concrete inputs: a raised benchmarker call after a
successful extraction fails the run and leaves web research untouched. -/
theorem C6_witness :
    (runHandler emptySession [] (.ok sampleBillJson) (.err "down".toList)
      (.ok partialReportJson)).failed =
        some (.benchmarker, .upstream "down".toList) ∧
    (runHandler emptySession [] (.ok sampleBillJson) (.err "down".toList)
      (.ok partialReportJson)).state.web_research = emptySession.web_research :=
  C6_upstream_failure_fails_run.2 emptySession [] (.ok sampleBillJson)
    (.ok partialReportJson) sampleBillVal sampleCtx "down".toList rfl rfl

/-! ### Claim C4 — Sequencing and partial results -/

/-- Claim C4: within one run, a stage's delegate is invoked only after
every earlier stage succeeded and stored its result, and a failure at any
stage leaves every strictly earlier stage's freshly stored result in place.
-/
theorem C4_sequencing_and_partial_results (st : SessionState) (pdf : Chars)
    (r1 r2 r3 : DelegateResult) :
    (Stage.benchmarker ∈ (runHandler st pdf r1 r2 r3).ran →
      ∃ v, run_agent_1 pdf r1 = .ok v ∧
        (runHandler st pdf r1 r2 r3).state.bill_analysis = some v) ∧
    (Stage.reporter ∈ (runHandler st pdf r1 r2 r3).ran →
      ∃ v ctx w, run_agent_1 pdf r1 = .ok v ∧ searchContext v = some ctx ∧
        run_agent_2 ctx r2 = .ok w ∧
        (runHandler st pdf r1 r2 r3).state.bill_analysis = some v ∧
        (runHandler st pdf r1 r2 r3).state.web_research = some w) ∧
    (∀ s e, (runHandler st pdf r1 r2 r3).failed = some (s, e) →
      (stageIdx Stage.extractor < stageIdx s →
        ∃ v, run_agent_1 pdf r1 = .ok v ∧
          (runHandler st pdf r1 r2 r3).state.bill_analysis = some v) ∧
      (stageIdx Stage.benchmarker < stageIdx s →
        ∃ v ctx w, run_agent_1 pdf r1 = .ok v ∧ searchContext v = some ctx ∧
          run_agent_2 ctx r2 = .ok w ∧
          (runHandler st pdf r1 r2 r3).state.web_research = some w)) := by
  rcases ha1 : run_agent_1 pdf r1 with e1 | bill
  · have key : runHandler st pdf r1 r2 r3 =
        ⟨st, [.extractor], some (.extractor, e1)⟩ := by
      simp [runHandler, ha1]
    rw [key]
    refine ⟨?_, ?_, ?_⟩
    · intro h
      simp at h
    · intro h
      simp at h
    · rintro s e hf
      simp only [Option.some.injEq, Prod.mk.injEq] at hf
      obtain ⟨hs, -⟩ := hf
      subst hs
      exact ⟨fun hlt => by simp [stageIdx] at hlt,
        fun hlt => by simp [stageIdx] at hlt⟩
  · rcases hctx : searchContext bill with - | ctx
    · have key : runHandler st pdf r1 r2 r3 =
          ⟨{ st with bill_analysis := some bill }, [.extractor],
            some (.benchmarker, .typeErr)⟩ := by
        simp [runHandler, ha1, hctx]
      rw [key]
      refine ⟨?_, ?_, ?_⟩
      · intro h
        simp at h
      · intro h
        simp at h
      · rintro s e hf
        simp only [Option.some.injEq, Prod.mk.injEq] at hf
        obtain ⟨hs, -⟩ := hf
        subst hs
        exact ⟨fun _ => ⟨bill, rfl, rfl⟩,
          fun hlt => by simp [stageIdx] at hlt⟩
    · rcases ha2 : run_agent_2 ctx r2 with e2 | web
      · have key : runHandler st pdf r1 r2 r3 =
            ⟨{ st with bill_analysis := some bill },
              [.extractor, .benchmarker], some (.benchmarker, e2)⟩ := by
          simp [runHandler, ha1, hctx, ha2]
        rw [key]
        refine ⟨fun _ => ⟨bill, rfl, rfl⟩, ?_, ?_⟩
        · intro h
          simp at h
        · rintro s e hf
          simp only [Option.some.injEq, Prod.mk.injEq] at hf
          obtain ⟨hs, -⟩ := hf
          subst hs
          exact ⟨fun _ => ⟨bill, rfl, rfl⟩,
            fun hlt => by simp [stageIdx] at hlt⟩
      · rcases ha3 : run_agent_3 bill web r3 with e3 | rep
        · have key : runHandler st pdf r1 r2 r3 =
              ⟨⟨some bill, some web, st.final_report⟩,
                [.extractor, .benchmarker, .reporter],
                some (.reporter, e3)⟩ := by
            obtain ⟨b, w, f⟩ := st
            simp [runHandler, ha1, hctx, ha2, ha3]
          rw [key]
          refine ⟨fun _ => ⟨bill, rfl, rfl⟩,
            fun _ => ⟨bill, ctx, web, rfl, hctx, ha2, rfl, rfl⟩, ?_⟩
          rintro s e hf
          simp only [Option.some.injEq, Prod.mk.injEq] at hf
          obtain ⟨hs, -⟩ := hf
          subst hs
          exact ⟨fun _ => ⟨bill, rfl, rfl⟩,
            fun _ => ⟨bill, ctx, web, rfl, hctx, ha2, rfl⟩⟩
        · have key : runHandler st pdf r1 r2 r3 =
              ⟨⟨some bill, some web, some rep⟩,
                [.extractor, .benchmarker, .reporter], none⟩ := by
            obtain ⟨b, w, f⟩ := st
            simp [runHandler, ha1, hctx, ha2, ha3]
          rw [key]
          refine ⟨fun _ => ⟨bill, rfl, rfl⟩,
            fun _ => ⟨bill, ctx, web, rfl, hctx, ha2, rfl, rfl⟩, ?_⟩
          rintro s e hf
          simp at hf

/-- Witness for C4 at concrete inputs: on a fully successful run the
reporter ran, and the extractor and benchmarker results it depended on are
both stored. -/
theorem C4_witness :
    ∃ v ctx w, run_agent_1 [] (.ok sampleBillJson) = .ok v ∧
      searchContext v = some ctx ∧ run_agent_2 ctx (.ok sampleBenchJson) = .ok w ∧
      (runHandler emptySession [] (.ok sampleBillJson) (.ok sampleBenchJson)
        (.ok partialReportJson)).state.bill_analysis = some v ∧
      (runHandler emptySession [] (.ok sampleBillJson) (.ok sampleBenchJson)
        (.ok partialReportJson)).state.web_research = some w :=
  (C4_sequencing_and_partial_results emptySession [] (.ok sampleBillJson)
    (.ok sampleBenchJson) (.ok partialReportJson)).2.1
    (by
      have e : (runHandler emptySession [] (.ok sampleBillJson)
          (.ok sampleBenchJson) (.ok partialReportJson)).ran =
          [.extractor, .benchmarker, .reporter] := rfl
      rw [e]
      simp)

/-! ### Claim C7 — No exception crosses the pipeline boundary -/

/-- Claim C7: the handler catches every stage exception — for every session
state and every combination of delegate outcomes it returns a result, whose
recorded failure cause is absent exactly when all three stages (and the
query derivation between them) succeeded. -/
theorem C7_no_exception_escapes (st : SessionState) (pdf : Chars)
    (r1 r2 r3 : DelegateResult) :
    ∃ st' ran f, runHandler st pdf r1 r2 r3 = ⟨st', ran, f⟩ ∧
      (f = none ↔ ∃ v1 ctx v2 v3, run_agent_1 pdf r1 = .ok v1 ∧
        searchContext v1 = some ctx ∧ run_agent_2 ctx r2 = .ok v2 ∧
        run_agent_3 v1 v2 r3 = .ok v3) := by
  rcases ha1 : run_agent_1 pdf r1 with e1 | bill
  · refine ⟨st, [.extractor], some (.extractor, e1), by simp [runHandler, ha1], ?_⟩
    simp only [iff_iff_implies_and_implies]
    refine ⟨fun h => by simp at h, ?_⟩
    rintro ⟨v1, ctx, v2, v3, h1, -, -, -⟩
    exact Except.noConfusion h1
  · rcases hctx : searchContext bill with - | ctx
    · refine ⟨{ st with bill_analysis := some bill }, [.extractor],
        some (.benchmarker, .typeErr), by simp [runHandler, ha1, hctx], ?_⟩
      simp only [iff_iff_implies_and_implies]
      refine ⟨fun h => by simp at h, ?_⟩
      rintro ⟨v1, ctx', v2, v3, h1, hc, -, -⟩
      have hv : bill = v1 := Except.ok.inj h1
      subst hv
      rw [hctx] at hc
      exact Option.noConfusion hc
    · rcases ha2 : run_agent_2 ctx r2 with e2 | web
      · refine ⟨{ st with bill_analysis := some bill },
          [.extractor, .benchmarker], some (.benchmarker, e2),
          by simp [runHandler, ha1, hctx, ha2], ?_⟩
        simp only [iff_iff_implies_and_implies]
        refine ⟨fun h => by simp at h, ?_⟩
        rintro ⟨v1, ctx', v2, v3, h1, hc, h2, -⟩
        have hv : bill = v1 := Except.ok.inj h1
        subst hv
        rw [hctx] at hc
        have hcv : ctx = ctx' := Option.some.inj hc
        subst hcv
        rw [ha2] at h2
        exact Except.noConfusion h2
      · rcases ha3 : run_agent_3 bill web r3 with e3 | rep
        · refine ⟨⟨some bill, some web, st.final_report⟩,
            [.extractor, .benchmarker, .reporter], some (.reporter, e3),
            by obtain ⟨b, w, f⟩ := st; simp [runHandler, ha1, hctx, ha2, ha3], ?_⟩
          simp only [iff_iff_implies_and_implies]
          refine ⟨fun h => by simp at h, ?_⟩
          rintro ⟨v1, ctx', v2, v3, h1, hc, h2, h3⟩
          have hv : bill = v1 := Except.ok.inj h1
          subst hv
          rw [hctx] at hc
          have hcv : ctx = ctx' := Option.some.inj hc
          subst hcv
          rw [ha2] at h2
          have hw : web = v2 := Except.ok.inj h2
          subst hw
          rw [ha3] at h3
          exact Except.noConfusion h3
        · refine ⟨⟨some bill, some web, some rep⟩,
            [.extractor, .benchmarker, .reporter], none,
            by obtain ⟨b, w, f⟩ := st; simp [runHandler, ha1, hctx, ha2, ha3], ?_⟩
          simp only [true_iff]
          exact ⟨bill, ctx, web, rep, rfl, hctx, ha2, ha3⟩

/-- Witness for C7 at concrete inputs: a fully successful run records no
failure cause. -/
theorem C7_witness :
    (runHandler emptySession [] (.ok sampleBillJson) (.ok sampleBenchJson)
      (.ok partialReportJson)).failed = none := by
  obtain ⟨st', ran, f, heq, hiff⟩ := C7_no_exception_escapes emptySession []
    (.ok sampleBillJson) (.ok sampleBenchJson) (.ok partialReportJson)
  have hf : f = none := hiff.mpr
    ⟨sampleBillVal, sampleCtx, sampleBenchVal, partialReportVal, rfl, rfl, rfl, rfl⟩
  rw [heq, hf]

/-! ### Claim C9 — Benchmark-query derivation -/

/-- Claim C9: the benchmark-query derivation is total over partial bill
records: for every record whose `ratePerKwh` field is a number or absent
(the interpolation of the usage value is total whatever its shape), it
produces the formatted query string, with an absent `ratePerKwh` silently
replaced by `0.15` and an absent `usage` by `0`. -/
theorem C9_query_derivation_total (fs : List (Chars × JVal))
    (hr : numOrAbsent fs rateKey) :
    searchContext (.obj fs) =
      some (fmtFixed 3 (numValOf ((pyGet fs rateKey).getD (.num true (mkRat 15 100)))) ++
        " USD/kWh, ".toList ++
        pyFStr ((pyGet fs usageKey).getD (.num false 0)) ++ " kWh usage".toList) ∧
    (pyGet fs rateKey = none ∧ pyGet fs usageKey = none →
      searchContext (.obj fs) = some "0.150 USD/kWh, 0 kWh usage".toList) := by
  have main : searchContext (.obj fs) =
      some (fmtFixed 3 (numValOf ((pyGet fs rateKey).getD (.num true (mkRat 15 100)))) ++
        " USD/kWh, ".toList ++
        pyFStr ((pyGet fs usageKey).getD (.num false 0)) ++ " kWh usage".toList) := by
    rcases hr with hn | ⟨f, q, hq⟩
    · simp [searchContext, hn, pyFormatFixed, numValOf]
    · simp [searchContext, hq, pyFormatFixed, numValOf]
  refine ⟨main, ?_⟩
  rintro ⟨hn1, hn2⟩
  rw [main, hn1, hn2]
  rfl

/-- Witness for C9 at a concrete input: the empty record derives the
all-defaults query string. -/
theorem C9_witness :
    searchContext (.obj []) = some "0.150 USD/kWh, 0 kWh usage".toList :=
  (C9_query_derivation_total [] (Or.inl rfl)).2 ⟨rfl, rfl⟩

/-! ### Claim C10 — Display is total with per-field defaults -/

lemma slotComma2 (o : Option JVal) (h : o = none ∨ ∃ f q, o = some (.num f q)) :
    ∃ t, pyFormatComma2 (o.getD (.num false 0)) = some t ∧
      (o = none → t = "0.00".toList) := by
  rcases h with h | ⟨f, q, h⟩ <;> subst h
  · exact ⟨"0.00".toList, rfl, fun _ => rfl⟩
  · exact ⟨_, rfl, fun hx => Option.noConfusion hx⟩

lemma slotComma (o : Option JVal) (h : o = none ∨ ∃ f q, o = some (.num f q)) :
    ∃ t, pyFormatComma (o.getD (.num false 0)) = some t ∧
      (o = none → t = "0".toList) := by
  rcases h with h | ⟨f, q, h⟩ <;> subst h
  · exact ⟨"0".toList, rfl, fun _ => rfl⟩
  · cases f
    · exact ⟨_, rfl, fun hx => Option.noConfusion hx⟩
    · exact ⟨_, rfl, fun hx => Option.noConfusion hx⟩

lemma slotFixed (k : Nat) (o : Option JVal)
    (h : o = none ∨ ∃ f q, o = some (.num f q)) :
    ∃ t, pyFormatFixed k (o.getD (.num false 0)) = some t ∧
      (o = none → t = fmtFixed k 0) := by
  rcases h with h | ⟨f, q, h⟩ <;> subst h
  · exact ⟨fmtFixed k 0, rfl, fun _ => rfl⟩
  · exact ⟨_, rfl, fun hx => Option.noConfusion hx⟩

lemma slotBP (o : Option JVal) (h : o = none ∨ ∃ s, o = some (.str s)) :
    ∃ s', o.getD (.str "N/A".toList) = .str s' ∧
      (o = none → s' = "N/A".toList) := by
  rcases h with h | ⟨s, h⟩ <;> subst h
  · exact ⟨"N/A".toList, rfl, fun _ => rfl⟩
  · exact ⟨s, rfl, fun hx => Option.noConfusion hx⟩

lemma slotGuardIter (o : Option JVal) (h : o = none ∨ ∃ xs, o = some (.arr xs)) :
    ∃ l, guardedIter o = some l ∧ (o = none → l = []) := by
  rcases h with h | ⟨xs, h⟩ <;> subst h
  · exact ⟨[], rfl, fun _ => rfl⟩
  · by_cases ht : pyTruthy (.arr xs) = true
    · exact ⟨xs, by simp [guardedIter, ht, pyIter], fun hx => Option.noConfusion hx⟩
    · exact ⟨[], by simp [guardedIter, ht], fun hx => Option.noConfusion hx⟩

lemma slotIter (o : Option JVal) (h : o = none ∨ ∃ xs, o = some (.arr xs)) :
    ∃ l, pyIter (o.getD (.arr [])) = some l ∧ (o = none → l = []) := by
  rcases h with h | ⟨xs, h⟩ <;> subst h
  · exact ⟨[], rfl, fun _ => rfl⟩
  · exact ⟨xs, rfl, fun hx => Option.noConfusion hx⟩

/-- Claim C10: the two result displays are total over records with absent
fields (present fields being of their schema types): every read uses a
fixed default — numeric metrics default to `0` (rendering `$0.00`,
`0 kWh`, `0 kW`, `0.00`, `$0.0000`), `billingPeriod` to `N/A`, the guarded
sections and list fields to nothing — so a missing field renders its
default instead of raising. -/
theorem C10_display_total_with_defaults (fs gs : List (Chars × JVal))
    (h1 : numOrAbsent fs "totalCost".toList) (h2 : numOrAbsent fs usageKey)
    (h3 : numOrAbsent fs "demandKw".toList)
    (h4 : numOrAbsent fs "powerFactor".toList) (h5 : numOrAbsent fs rateKey)
    (h6 : strOrAbsent fs "billingPeriod".toList)
    (h7 : arrOrAbsent fs "unusualCharges".toList)
    (h9 : arrOrAbsent gs "savings".toList)
    (h10 : arrOrAbsent gs "nextSteps".toList) :
    (∃ rb, renderBill (.obj fs) = some rb ∧
      (pyGet fs "totalCost".toList = none → rb.totalCost = "$0.00".toList) ∧
      (pyGet fs usageKey = none → rb.usage = "0 kWh".toList) ∧
      (pyGet fs "demandKw".toList = none → rb.demandKw = "0 kW".toList) ∧
      (pyGet fs "powerFactor".toList = none → rb.powerFactor = "0.00".toList) ∧
      (pyGet fs rateKey = none → rb.ratePerKwh = "$0.0000".toList) ∧
      (pyGet fs "billingPeriod".toList = none →
        rb.billingPeriod = .str "N/A".toList) ∧
      (pyGet fs "unusualCharges".toList = none → rb.unusualCharges = []) ∧
      (pyGet fs "insights".toList = none → rb.insights = none)) ∧
    (∃ rr, renderReport (.obj gs) = some rr ∧
      (pyGet gs "summary".toList = none → rr.summary = .str []) ∧
      (pyGet gs "comparison".toList = none → rr.comparison = .str []) ∧
      (pyGet gs "savings".toList = none → rr.savings = []) ∧
      (pyGet gs "nextSteps".toList = none → rr.nextSteps = [])) := by
  obtain ⟨t1, e1, d1⟩ := slotComma2 _ h1
  obtain ⟨t2, e2, d2⟩ := slotComma _ h2
  obtain ⟨t3, e3, d3⟩ := slotComma _ h3
  obtain ⟨t4, e4, d4⟩ := slotFixed 2 _ h4
  obtain ⟨t5, e5, d5⟩ := slotFixed 4 _ h5
  obtain ⟨bp, e6, d6⟩ := slotBP _ h6
  obtain ⟨ch, e7, d7⟩ := slotGuardIter _ h7
  obtain ⟨sv, e9, d9⟩ := slotIter _ h9
  obtain ⟨ns, e10, d10⟩ := slotIter _ h10
  constructor
  · refine ⟨⟨'$' :: t1, t2 ++ " kWh".toList, t3 ++ " kW".toList, t4, '$' :: t5,
      .str bp, ch, guardedShow (pyGet fs "insights".toList)⟩, ?_, ?_, ?_, ?_, ?_, ?_, ?_, ?_, ?_⟩
    · simp only [renderBill]
      rw [e1, e2, e3, e4, e5, e6, e7]
      simp only [Option.bind_eq_bind, Option.some_bind]
    · intro hx
      show '$' :: t1 = _
      rw [d1 hx]
      rfl
    · intro hx
      show t2 ++ " kWh".toList = _
      rw [d2 hx]
      rfl
    · intro hx
      show t3 ++ " kW".toList = _
      rw [d3 hx]
      rfl
    · intro hx
      show t4 = _
      rw [d4 hx]
      rfl
    · intro hx
      show '$' :: t5 = _
      rw [d5 hx]
      rfl
    · intro hx
      show JVal.str bp = _
      rw [d6 hx]
    · intro hx
      exact d7 hx


    · intro hx
      show guardedShow (pyGet fs "insights".toList) = none
      rw [hx]
      rfl
  · refine ⟨⟨(pyGet gs "summary".toList).getD (.str []),
      (pyGet gs "comparison".toList).getD (.str []), sv, ns⟩, ?_, ?_, ?_, ?_, ?_⟩
    · simp only [renderReport]
      rw [e9, e10]
      simp only [Option.bind_eq_bind, Option.some_bind]
    · intro hx
      rw [hx]
      rfl
    · intro hx
      rw [hx]
      rfl
    · intro hx
      exact d9 hx
    · intro hx
      exact d10 hx

/-- Witness for C10 at a concrete input: the empty bill and report records
render entirely with the documented defaults. -/
theorem C10_witness :
    ∃ rb, renderBill (.obj []) = some rb ∧ rb.totalCost = "$0.00".toList ∧
      rb.billingPeriod = .str "N/A".toList ∧ rb.unusualCharges = [] := by
  obtain ⟨⟨rb, he, d1, -, -, -, -, d6, d7, -⟩, -⟩ :=
    C10_display_total_with_defaults [] [] (Or.inl rfl) (Or.inl rfl) (Or.inl rfl)
      (Or.inl rfl) (Or.inl rfl) (Or.inl rfl) (Or.inl rfl) (Or.inl rfl) (Or.inl rfl)
  exact ⟨rb, he, d1 rfl, d6 rfl, d7 rfl⟩

end EnergyAgent
